import Mathlib

/-!
A verification development for the sitemap-scraper worker (src/src/index.ts).

The workflow (`MyWorkflow.run`) executes five durable steps:
`Get Sitemap URL`, `Fetch & Parse Sitemap`, `Scrape Pages`,
`Zip and Upload to R2`, `Generate Result`; an HTTP handler exposes
instance creation (POST) and status lookup (GET /status?id=...).

External collaborators (the HTTP responses of the sitemap server and of the
content-extraction API, the wall-clock timestamp, the durable-execution
runtime's instance lookup) are inputs of the embedded functions; everything
the TypeScript source computes is translated directly.
-/

namespace SitemapScraper

/-! ## JavaScript string primitives used by the source -/

/-- JavaScript line terminators: the characters that `.` in a regular
expression without the `s` flag does not match (U+000A, U+000D, U+2028,
U+2029). -/
def jsLineTerminator (c : Char) : Bool :=
  c.toNat = 0x0a ∨ c.toNat = 0x0d ∨ c.toNat = 0x2028 ∨ c.toNat = 0x2029

/-- JavaScript regular-expression `\s` (whitespace) character class. -/
def isJsSpace (c : Char) : Bool :=
  c.toNat = 0x09 ∨ c.toNat = 0x0a ∨ c.toNat = 0x0b ∨ c.toNat = 0x0c ∨
  c.toNat = 0x0d ∨ c.toNat = 0x20 ∨ c.toNat = 0xa0 ∨ c.toNat = 0x1680 ∨
  (0x2000 ≤ c.toNat ∧ c.toNat ≤ 0x200a) ∨ c.toNat = 0x2028 ∨
  c.toNat = 0x2029 ∨ c.toNat = 0x202f ∨ c.toNat = 0x205f ∨
  c.toNat = 0x3000 ∨ c.toNat = 0xfeff

/-- JavaScript `str.split(sep)` for a single-character separator: the
pieces between occurrences of `sep`, keeping empty pieces
(`"a//b".split('/') = ["a","","b"]`, `"".split('/') = [""]`). -/
def jsSplitAux (sep : Char) : List Char → List Char → List String
  | [], acc => [String.mk acc.reverse]
  | c :: cs, acc =>
      if c = sep then String.mk acc.reverse :: jsSplitAux sep cs []
      else jsSplitAux sep cs (c :: acc)

/-- JavaScript `str.split(sep)` (single-character separator). -/
def jsSplit (sep : Char) (s : String) : List String :=
  jsSplitAux sep s.toList []

/-! ## The two regular-expression scans of `Fetch & Parse Sitemap`

`xml.matchAll(/<loc>(.*?)<\/loc>/g)` and `xml.matchAll(/<a\s+href="(.*?)"/g)`,
taking the first capture group of each match.  The scan is left-to-right and
non-overlapping; the lazy group `(.*?)` takes the shortest extension that
reaches the closing pattern, and `.` never matches a line terminator, so a
match attempt that hits a line terminator (or the end of input) before the
closing pattern fails and the scan resumes one character after the previous
start position.  The `Nat` argument of the scanners is a structural-recursion
fuel, always called with the length of the remaining input; every recursive
call consumes at least one character, so the fuel never runs out. -/

/-- The lazy capture `(.*?)` up to the pattern `close`: returns the shortest
leading segment free of line terminators that is followed by `close`,
together with the input remaining after `close`; `none` when a line
terminator or the end of input comes first. -/
def lazyCapture (close : List Char) : List Char → Option (List Char × List Char)
  | [] => none
  | c :: cs =>
      if close.isPrefixOf (c :: cs) then some ([], (c :: cs).drop close.length)
      else if jsLineTerminator c then none
      else
        match lazyCapture close cs with
        | some (cap, rest) => some (c :: cap, rest)
        | none => none

/-- The opening pattern `<loc>`. -/
def locOpen : List Char := ['<', 'l', 'o', 'c', '>']

/-- The closing pattern `</loc>`. -/
def locClose : List Char := ['<', '/', 'l', 'o', 'c', '>']

/-- All first-group captures of `/<loc>(.*?)<\/loc>/g` over the input. -/
def locScan : Nat → List Char → List (List Char)
  | 0, _ => []
  | _ + 1, [] => []
  | fuel + 1, c :: cs =>
      if locOpen.isPrefixOf (c :: cs) then
        match lazyCapture locClose ((c :: cs).drop locOpen.length) with
        | some (cap, rest) => cap :: locScan fuel rest
        | none => locScan fuel cs
      else locScan fuel cs

/-- The opening pattern `<a\s+href="` of the anchor regex: `<a`, one or more
whitespace characters (`\s+` is greedy, but backtracking cannot help because
`href` starts with a non-whitespace character, so the maximal whitespace run
must be followed by `href="` directly), then `href="`.  Returns the input
remaining after the opening pattern. -/
def hrefAfterOpen (s : List Char) : Option (List Char) :=
  if ['<', 'a'].isPrefixOf s then
    match s.drop 2 with
    | [] => none
    | c :: cs =>
        if isJsSpace c then
          let u := (c :: cs).dropWhile isJsSpace
          if ['h', 'r', 'e', 'f', '=', '"'].isPrefixOf u then some (u.drop 6)
          else none
        else none
  else none

/-- All first-group captures of `/<a\s+href="(.*?)"/g` over the input. -/
def hrefScan : Nat → List Char → List (List Char)
  | 0, _ => []
  | _ + 1, [] => []
  | fuel + 1, c :: cs =>
      match hrefAfterOpen (c :: cs) with
      | some t =>
          match lazyCapture ['"'] t with
          | some (cap, rest) => cap :: hrefScan fuel rest
          | none => hrefScan fuel cs
      | none => hrefScan fuel cs

/-- `[...xml.matchAll(/<loc>(.*?)<\/loc>/g)].map(m => m[1])`. -/
def locCaptures (xml : String) : List String :=
  (locScan xml.toList.length xml.toList).map String.mk

/-- `[...xml.matchAll(/<a\s+href="(.*?)"/g)].map(m => m[1])`. -/
def hrefCaptures (xml : String) : List String :=
  (hrefScan xml.toList.length xml.toList).map String.mk

/-! ## JavaScript `Set` deduplication -/

/-- `[...new Set(l)]` relative to the elements already `seen`: keeps the
first occurrence of each element, in insertion order. -/
def jsSetDedupAux (seen : List String) : List String → List String
  | [] => []
  | x :: xs =>
      if x ∈ seen then jsSetDedupAux seen xs
      else x :: jsSetDedupAux (x :: seen) xs

/-- `[...new Set(l)]`: duplicates removed, first-seen order preserved. -/
def jsSetDedup (l : List String) : List String := jsSetDedupAux [] l

/-! ## The five durable steps of `MyWorkflow.run` -/

/-- A JavaScript value, as far as the `sitemapUrl` validations inspect one
(`!v` truthiness and `typeof v !== 'string'`). -/
inductive JsValue
  | vNull
  | vBool (b : Bool)
  | vNum (n : Int)
  | vStr (s : String)
deriving DecidableEq

/-- JavaScript truthiness of a value. -/
def jsTruthy : JsValue → Bool
  | .vNull => false
  | .vBool b => b
  | .vNum n => decide (n ≠ 0)
  | .vStr s => decide (s ≠ "")

/-- `typeof v === 'string'`. -/
def jsIsString : JsValue → Bool
  | .vStr _ => true
  | _ => false

/-- The error thrown (and immediately re-wrapped with the step-name
pattern) by step 1 when the payload's `sitemapUrl` is falsy or not a
string. -/
def getSitemapUrlErrMsg : String :=
  "Get Sitemap URL failed: sitemapUrl is missing or invalid. Provide it using \x7b\"sitemapUrl\":\"https://...\"\x7d"

/-- Step 1, `Get Sitemap URL`: `event.payload?.sitemapUrl`, rejected when
`!url || typeof url !== 'string'` (a missing field, a missing payload, a
non-string value, or the empty string).  The input is the `sitemapUrl`
field of the event payload, `none` when the payload is absent or lacks the
field. -/
def getSitemapUrlStep (field : Option JsValue) : Except String String :=
  match field with
  | some (JsValue.vStr s) =>
      if s = "" then Except.error getSitemapUrlErrMsg else Except.ok s
  | _ => Except.error getSitemapUrlErrMsg

/-- An HTTP response to the sitemap fetch, as far as the step inspects it:
`status`, `statusText` and the body text. -/
structure HttpResponse where
  status : Nat
  statusText : String
  body : String
deriving DecidableEq

/-- `response.ok` of the Fetch API: the status is in the range 200–299. -/
def responseOk (r : HttpResponse) : Bool :=
  decide (200 ≤ r.status ∧ r.status ≤ 299)

/-- The per-step retry configuration passed to `step.do`. -/
structure StepRetryConfig where
  limit : Nat
  delayMs : Nat
  backoff : String
deriving DecidableEq

/-- The step configuration passed to `step.do`. -/
structure StepConfig where
  retries : StepRetryConfig
  timeout : String
deriving DecidableEq

/-- The explicit configuration of the `Fetch & Parse Sitemap` step:
zero retries, one-second delay, exponential backoff, 10-minute timeout. -/
def fetchParseSitemapConfig : StepConfig :=
  { retries := { limit := 0, delayMs := 1000, backoff := "exponential" }
    timeout := "10 minutes" }

/-- Step 2, `Fetch & Parse Sitemap`: fails on a non-2xx response; otherwise
collects the `<loc>` captures then the anchor `href` captures, deduplicates
them with `Set` semantics, fails when the union is empty, and returns the
first 10 entries.  Every error is wrapped with the step-name pattern. -/
def fetchParseSitemapStep (r : HttpResponse) : Except String (List String) :=
  if responseOk r = false then
    Except.error ("Fetch & Parse Sitemap failed: " ++
      ("Failed to fetch sitemap: " ++ toString r.status ++ " " ++ r.statusText))
  else
    let locUrls := locCaptures r.body
    let aTags := hrefCaptures r.body
    let allUrls := jsSetDedup (locUrls ++ aTags)
    if allUrls.isEmpty then
      Except.error ("Fetch & Parse Sitemap failed: " ++ "No URLs found in sitemap.")
    else Except.ok (allUrls.take 10)

/-- The content-extraction API's response to one per-URL request, as far as
the loop inspects it: `res.ok` and the `markdown` field of the JSON body. -/
structure ScrapeResponse where
  ok : Bool
  markdown : String
deriving DecidableEq

/-- One entry of the `out` accumulator of the scraping loop. -/
structure ScrapedPage where
  fileName : String
  content : String
deriving DecidableEq

/-- `(url.split('/').filter(Boolean).pop() || 'index') + '.md'`: the last
non-empty slash-separated component of the URL (or `'index'` when there is
none), with the `.md` extension appended. -/
def fileNameOf (url : String) : String :=
  (((jsSplit '/' url).filter (fun p => p ≠ "")).getLast?.getD "index") ++ ".md"

/-- The scraping loop of step 3: one serial pass over the URLs, skipping
each URL whose extraction response is not `ok` and accumulating a
`ScrapedPage` for each success.  The external service's responses are the
input function `r`. -/
def scrapeLoop (r : String → ScrapeResponse) : List String → List ScrapedPage
  | [] => []
  | url :: rest =>
      if (r url).ok then
        { fileName := fileNameOf url, content := (r url).markdown } :: scrapeLoop r rest
      else scrapeLoop r rest

/-- Step 3, `Scrape Pages`: runs the loop and fails (wrapped with the
step-name pattern) exactly when no page succeeded. -/
def scrapePagesStep (r : String → ScrapeResponse) (pageUrls : List String) :
    Except String (List ScrapedPage) :=
  let out := scrapeLoop r pageUrls
  if out.isEmpty then
    Except.error ("Scrape Pages failed: " ++ "Scraping failed for all pages.")
  else Except.ok out

/-- The observable events of one iteration of the scraping loop, in program
order: the outgoing extraction request, the skip (`continue`) or the
success (`out.push`), and the `setTimeout` pause. -/
inductive ScrapeEvent
  | request (url : String)
  | skip (url : String)
  | success (url : String)
  | delayMs (ms : Nat)
deriving DecidableEq

/-- The event trace of the scraping loop.  In the source, the
3000-millisecond pause sits after `out.push`, and the `continue` of the
not-`ok` branch jumps straight to the next iteration, so a skipped URL is
followed by no pause. -/
def scrapeTrace (r : String → ScrapeResponse) : List String → List ScrapeEvent
  | [] => []
  | url :: rest =>
      if (r url).ok then
        ScrapeEvent.request url :: ScrapeEvent.success url ::
          ScrapeEvent.delayMs 3000 :: scrapeTrace r rest
      else
        ScrapeEvent.request url :: ScrapeEvent.skip url :: scrapeTrace r rest

/-- Walks a trace checking that a 3000-millisecond pause occurs strictly
between every two consecutive requests; the flag records whether a request
has been seen with no pause after it yet. -/
def delaySeparatesRequestsAux : Bool → List ScrapeEvent → Bool
  | _, [] => true
  | pending, ScrapeEvent.delayMs ms :: rest =>
      if ms = 3000 then delaySeparatesRequestsAux false rest
      else delaySeparatesRequestsAux pending rest
  | pending, ScrapeEvent.request _ :: rest =>
      if pending then false else delaySeparatesRequestsAux true rest
  | pending, _ :: rest => delaySeparatesRequestsAux pending rest

/-- The pause discipline the design asks of the loop: a fixed
3000-millisecond pause before every request that follows an earlier
attempt. -/
def delaySeparatesRequests (tr : List ScrapeEvent) : Bool :=
  delaySeparatesRequestsAux false tr

/-- The result committed by step 4 (the `size` field of the source, the
byte length of the compressed archive produced by the external `fflate`
library, is not modelled). -/
structure UploadResult where
  zipName : String
  files : List String
deriving DecidableEq

/-- `s.replace(/\./g, '_')`. -/
def replaceDotsWithUnderscore (s : String) : String :=
  String.mk (s.toList.map (fun c => if c = '.' then '_' else c))

/-- `t.replace(/[:.]/g, '-')`. -/
def sanitizeTimestamp (t : String) : String :=
  String.mk (t.toList.map (fun c => if c = ':' ∨ c = '.' then '-' else c))

/-- Step 4, `Zip and Upload to R2`: derives the archive name from
`sitemapUrl.split('/')[2]` (dots replaced by underscores) and the
sanitized ISO timestamp `ts` of the upload moment, and commits the name
and the file list.  When the URL has fewer than three slash-separated
components, `split('/')[2]` is `undefined` and `.replace` throws; the
catch wraps the error with the step-name pattern.  The `R2` `put` and the
`zipSync` byte output are external collaborators and are not modelled. -/
def zipUploadStep (sitemapUrl ts : String) (pages : List ScrapedPage) :
    Except String UploadResult :=
  match (jsSplit '/' sitemapUrl).get? 2 with
  | none =>
      Except.error ("Zip and Upload to R2 failed: " ++
        "Cannot read properties of undefined (reading 'replace')")
  | some d =>
      let domain := replaceDotsWithUnderscore d
      let zipName := domain ++ "_" ++ sanitizeTimestamp ts ++ ".zip"
      Except.ok { zipName := zipName, files := pages.map (fun p => p.fileName) }

/-- The value returned by the workflow. -/
structure FinalResult where
  downloadUrl : String
deriving DecidableEq

/-- The fixed public-access URL base of the R2 bucket, slash included. -/
def r2PublicUrlBase : String :=
  "https://pub-afa698db43a7418f8073ed229786891d.r2.dev/"

/-- Step 5, `Generate Result`: pure template substitution of the archive
name into the public URL base. -/
def generateResultStep (up : UploadResult) : Except String FinalResult :=
  Except.ok { downloadUrl := r2PublicUrlBase ++ up.zipName }

/-- The sequential composition of the five steps of `MyWorkflow.run`.
The inputs stand for the external world: the `sitemapUrl` field of the
event payload, the sitemap server's response, the content-extraction
API's responses, and the upload-moment ISO timestamp. -/
def runWorkflow (field : Option JsValue) (sitemapResp : HttpResponse)
    (scrapeResp : String → ScrapeResponse) (ts : String) :
    Except String FinalResult := do
  let sitemapUrl ← getSitemapUrlStep field
  let pageUrls ← fetchParseSitemapStep sitemapResp
  let pages ← scrapePagesStep scrapeResp pageUrls
  let up ← zipUploadStep sitemapUrl ts pages
  generateResultStep up

/-- The workflow-instance status reached by a terminated run.  Modelled
from the spec: the durable-execution runtime transitions the instance to
`errored` with the step's wrapped message when a step's error propagates
(the `Fetch & Parse Sitemap` step retries zero times), and to `complete`
when the run returns. -/
inductive InstanceStatus
  | complete (result : FinalResult)
  | errored (msg : String)
deriving DecidableEq

/-- Modelled from the spec: the terminal instance status of a run. -/
def instanceOutcome (res : Except String FinalResult) : InstanceStatus :=
  match res with
  | Except.ok v => InstanceStatus.complete v
  | Except.error m => InstanceStatus.errored m

/-! ## The durable-execution runtime (modelled from the spec)

The `step.do` memoization substrate is provided by `cloudflare:workers`
and is not part of this repository; §9 of the design models it as a
persisted log keyed by step name, with an orchestrator that skips any
step whose key is already present in the log. -/

/-- Modelled from the spec: one (re-)execution of a workflow over a
persisted log keyed by step name.  For each step name in order, a name
already committed in the log is skipped (its memoized result is reused);
an uncommitted name is invoked through `impl` and its result committed.
Returns the final log and the names invoked during this execution, in
order. -/
def runSteps {α : Type} (impl : String → α) :
    List (String × α) → List String → List (String × α) × List String
  | log, [] => (log, [])
  | log, n :: rest =>
      match log.lookup n with
      | some _ => runSteps impl log rest
      | none =>
          let r := runSteps impl ((n, impl n) :: log) rest
          (r.1, n :: r.2)

/-- The names of the five durable steps of `MyWorkflow.run`, in execution
order. -/
def stepNames : List String :=
  ["Get Sitemap URL", "Fetch & Parse Sitemap", "Scrape Pages",
   "Zip and Upload to R2", "Generate Result"]

/-! ## The HTTP handler -/

/-- The outcome of the instance-creation (POST) branch of the handler:
either a synchronous rejection with an HTTP status and an `{error}` body,
or the creation of a workflow instance with the given params. -/
inductive CreateOutcome
  | rejected (status : Nat) (errorMsg : String)
  | created (sitemapUrl : String)
deriving DecidableEq

/-- The POST branch of `fetch`: validates
`!payload?.sitemapUrl || typeof payload.sitemapUrl !== 'string'` and
returns a 400 `{error}` response without creating an instance on failure;
otherwise creates the instance with the payload. -/
def createEndpoint (field : Option JsValue) : CreateOutcome :=
  match field with
  | some (JsValue.vStr s) =>
      if s = "" then
        CreateOutcome.rejected 400 "Missing or invalid sitemapUrl in request body."
      else CreateOutcome.created s
  | _ => CreateOutcome.rejected 400 "Missing or invalid sitemapUrl in request body."

/-- The outcome of `env.MY_WORKFLOW.get(id)` followed by
`instance.status()`, as the handler observes it.  Modelled from the spec's
collaborator contract: a found instance with its id and status, an unknown
id (no instance), or a lookup failure (a thrown error). -/
inductive LookupOutcome
  | found (id status : String)
  | absent
  | failed (err : String)
deriving DecidableEq

/-- The body of an HTTP reply of the status endpoint. -/
inductive ReplyBody
  | errorBody (msg : String)
  | instanceBody (id status : String)
  | plainText (msg : String)
deriving DecidableEq

/-- An HTTP reply of the status endpoint. -/
structure HttpReply where
  status : Nat
  body : ReplyBody
deriving DecidableEq

/-- The GET `/status` branch of `fetch`.  The first input is
`url.searchParams.get('id')`; a missing (or empty, hence falsy) id is
rejected with 400 before the runtime is consulted.  The second input is
the runtime lookup's outcome; the returned flag records whether the
runtime was queried at all. -/
def statusEndpoint (idParam : Option String) (lu : LookupOutcome) :
    HttpReply × Bool :=
  match idParam with
  | none =>
      ({ status := 400
         body := ReplyBody.plainText
           "Missing workflow instance ID. Use /status?id=your-instance-id" }, false)
  | some id =>
      if id = "" then
        ({ status := 400
           body := ReplyBody.plainText
             "Missing workflow instance ID. Use /status?id=your-instance-id" }, false)
      else
        match lu with
        | LookupOutcome.absent =>
            ({ status := 404, body := ReplyBody.errorBody "Workflow instance not found" }, true)
        | LookupOutcome.failed e =>
            ({ status := 500
               body := ReplyBody.errorBody ("Failed to get workflow status: " ++ e) }, true)
        | LookupOutcome.found fid st =>
            ({ status := 200, body := ReplyBody.instanceBody fid st }, true)

/-! ## Properties of the `Set` deduplication -/

theorem mem_jsSetDedupAux (x : String) :
    ∀ (l seen : List String), x ∈ jsSetDedupAux seen l ↔ x ∈ l ∧ x ∉ seen := by
  intro l
  induction l with
  | nil => intro seen; simp [jsSetDedupAux]
  | cons y ys ih =>
    intro seen
    by_cases hy : y ∈ seen
    · rw [jsSetDedupAux, if_pos hy, ih]
      simp only [List.mem_cons]
      constructor
      · rintro ⟨hxy, hxs⟩; exact ⟨Or.inr hxy, hxs⟩
      · rintro ⟨hor, hxs⟩
        rcases hor with h | h
        · exact absurd (h ▸ hy) hxs
        · exact ⟨h, hxs⟩
    · rw [jsSetDedupAux, if_neg hy]
      simp only [List.mem_cons, ih]
      constructor
      · rintro (h | ⟨hxy, hxs⟩)
        · exact ⟨Or.inl h, h ▸ hy⟩
        · exact ⟨Or.inr hxy, fun hmem => hxs (Or.inr hmem)⟩
      · rintro ⟨hor, hxs⟩
        rcases hor with h | h
        · exact Or.inl h
        · by_cases hxy : x = y
          · exact Or.inl hxy
          · exact Or.inr ⟨h, fun hmem => by
              rcases hmem with h2 | h2
              · exact hxy h2
              · exact hxs h2⟩

theorem jsSetDedupAux_sublist :
    ∀ (l seen : List String), (jsSetDedupAux seen l).Sublist l := by
  intro l
  induction l with
  | nil => intro seen; simp [jsSetDedupAux]
  | cons y ys ih =>
    intro seen
    by_cases hy : y ∈ seen
    · rw [jsSetDedupAux, if_pos hy]
      exact List.Sublist.cons y (ih seen)
    · rw [jsSetDedupAux, if_neg hy]
      exact List.Sublist.cons₂ y (ih (y :: seen))

theorem jsSetDedupAux_nodup :
    ∀ (l seen : List String), (jsSetDedupAux seen l).Nodup := by
  intro l
  induction l with
  | nil => intro seen; simp [jsSetDedupAux]
  | cons y ys ih =>
    intro seen
    by_cases hy : y ∈ seen
    · rw [jsSetDedupAux, if_pos hy]; exact ih seen
    · rw [jsSetDedupAux, if_neg hy]
      refine List.nodup_cons.mpr ⟨?_, ih (y :: seen)⟩
      intro hmem
      exact ((mem_jsSetDedupAux y ys (y :: seen)).mp hmem).2 (List.mem_cons_self y seen)

theorem jsSetDedupAux_pairwise_indexOf :
    ∀ (l seen : List String),
      (jsSetDedupAux seen l).Pairwise
        (fun a b => l.indexOf a < l.indexOf b) := by
  intro l
  induction l with
  | nil => intro seen; simp [jsSetDedupAux]
  | cons y ys ih =>
    intro seen
    by_cases hy : y ∈ seen
    · rw [jsSetDedupAux, if_pos hy]
      refine (ih seen).imp_of_mem ?_
      intro a b ha hb hab
      have hay : y ≠ a := fun h => ((mem_jsSetDedupAux a ys seen).mp ha).2 (h ▸ hy)
      have hby : y ≠ b := fun h => ((mem_jsSetDedupAux b ys seen).mp hb).2 (h ▸ hy)
      rw [List.indexOf_cons_ne ys hay, List.indexOf_cons_ne ys hby]
      omega
    · rw [jsSetDedupAux, if_neg hy]
      refine List.pairwise_cons.mpr ⟨?_, ?_⟩
      · intro b hb
        have hby : y ≠ b := fun h =>
          ((mem_jsSetDedupAux b ys (y :: seen)).mp hb).2 (h ▸ List.mem_cons_self y seen)
        rw [List.indexOf_cons_self, List.indexOf_cons_ne ys hby]
        omega
      · refine (ih (y :: seen)).imp_of_mem ?_
        intro a b ha hb hab
        have hay : y ≠ a := fun h =>
          ((mem_jsSetDedupAux a ys (y :: seen)).mp ha).2 (h ▸ List.mem_cons_self y seen)
        have hby : y ≠ b := fun h =>
          ((mem_jsSetDedupAux b ys (y :: seen)).mp hb).2 (h ▸ List.mem_cons_self y seen)
        rw [List.indexOf_cons_ne ys hay, List.indexOf_cons_ne ys hby]
        omega

/-- The property C2 asserts of the `Fetch & Parse Sitemap` result for a
response `r`: the returned list is the first 10 entries of the `Set`-style
union of the `<loc>` captures followed by the anchor `href` captures,
without duplicates, order-preserving over the raw concatenation, each
element placed by the position of its first occurrence; the union keeps
exactly the URLs of the concatenation, and more than 10 unique URLs are
truncated to exactly 10. -/
def fetchParseListSpec (r : HttpResponse) : Prop :=
  fetchParseSitemapStep r =
    Except.ok ((jsSetDedup (locCaptures r.body ++ hrefCaptures r.body)).take 10) ∧
  ((jsSetDedup (locCaptures r.body ++ hrefCaptures r.body)).take 10).Nodup ∧
  ((jsSetDedup (locCaptures r.body ++ hrefCaptures r.body)).take 10).Sublist
    (locCaptures r.body ++ hrefCaptures r.body) ∧
  ((jsSetDedup (locCaptures r.body ++ hrefCaptures r.body)).take 10).Pairwise
    (fun a b => (locCaptures r.body ++ hrefCaptures r.body).indexOf a <
      (locCaptures r.body ++ hrefCaptures r.body).indexOf b) ∧
  (∀ u, u ∈ jsSetDedup (locCaptures r.body ++ hrefCaptures r.body) ↔
    u ∈ locCaptures r.body ++ hrefCaptures r.body) ∧
  ((jsSetDedup (locCaptures r.body ++ hrefCaptures r.body)).take 10).length =
    min 10 (jsSetDedup (locCaptures r.body ++ hrefCaptures r.body)).length ∧
  (10 < (jsSetDedup (locCaptures r.body ++ hrefCaptures r.body)).length →
    ((jsSetDedup (locCaptures r.body ++ hrefCaptures r.body)).take 10).length = 10)

/-- C2: for every sitemap response body, `Fetch & Parse Sitemap` returns
the deduplicated (exact string equality) union of the `<loc>` captures
followed by the anchor `href` captures, preserving first-seen order across
the concatenation, truncated to the first 10 entries; with more than 10
unique URLs, exactly 10 are returned. -/
theorem c2_fetch_parse_dedup_take10 (r : HttpResponse)
    (hok : responseOk r = true)
    (hne : jsSetDedup (locCaptures r.body ++ hrefCaptures r.body) ≠ []) :
    fetchParseListSpec r := by
  have hsub : (jsSetDedup (locCaptures r.body ++ hrefCaptures r.body)).Sublist
      (locCaptures r.body ++ hrefCaptures r.body) :=
    jsSetDedupAux_sublist (locCaptures r.body ++ hrefCaptures r.body) []
  have htake := List.take_sublist 10
    (jsSetDedup (locCaptures r.body ++ hrefCaptures r.body))
  refine ⟨?_, ?_, htake.trans hsub, ?_, ?_, ?_, ?_⟩
  · rw [fetchParseSitemapStep]
    rw [if_neg (by simp [hok])]
    rw [if_neg (by
      intro hempty
      exact hne (List.isEmpty_iff.mp hempty))]
  · exact List.Nodup.sublist htake
      (jsSetDedupAux_nodup (locCaptures r.body ++ hrefCaptures r.body) [])
  · exact List.Pairwise.sublist htake
      (jsSetDedupAux_pairwise_indexOf (locCaptures r.body ++ hrefCaptures r.body) [])
  · intro u
    rw [jsSetDedup, mem_jsSetDedupAux u (locCaptures r.body ++ hrefCaptures r.body) []]
    simp
  · exact List.length_take 10 _
  · intro hlen
    rw [List.length_take]
    omega

/-- A sitemap response holding a duplicated `<loc>` URL and one anchor
`href` URL, for the C2 witness. -/
def sitemapRespW : HttpResponse :=
  { status := 200, statusText := "OK"
    body := "<loc>u1</loc><loc>u1</loc><a href=\"u2\">" }

theorem c2_fetch_parse_dedup_take10_witness :
    responseOk sitemapRespW = true ∧
    jsSetDedup (locCaptures sitemapRespW.body ++ hrefCaptures sitemapRespW.body) ≠ [] ∧
    fetchParseListSpec sitemapRespW :=
  ⟨by decide, by decide, c2_fetch_parse_dedup_take10 sitemapRespW (by decide) (by decide)⟩

/-! ## Properties of the scraping loop -/

theorem scrapeLoop_eq_filterMap (r : String → ScrapeResponse) (urls : List String) :
    scrapeLoop r urls = urls.filterMap (fun u =>
      if (r u).ok then some { fileName := fileNameOf u, content := (r u).markdown }
      else none) := by
  induction urls with
  | nil => rfl
  | cons u us ih =>
    by_cases h : (r u).ok <;> simp [scrapeLoop, List.filterMap_cons, h, ih]

theorem scrapeLoop_eq_nil_iff (r : String → ScrapeResponse) (urls : List String) :
    scrapeLoop r urls = [] ↔ ∀ u ∈ urls, (r u).ok = false := by
  induction urls with
  | nil => simp [scrapeLoop]
  | cons u us ih =>
    by_cases h : (r u).ok
    · simp only [scrapeLoop, if_pos h]
      constructor
      · intro hfalse; exact absurd hfalse (List.cons_ne_nil _ _)
      · intro hall
        exact absurd (hall u (List.mem_cons_self u us)) (by simp [h])
    · simp only [scrapeLoop, if_neg h, ih]
      constructor
      · intro hall v hv
        rcases List.mem_cons.mp hv with h2 | h2
        · subst h2; exact Bool.eq_false_iff.mpr h
        · exact hall v h2
      · intro hall v hv
        exact hall v (List.mem_cons_of_mem u hv)

/-- C3: `Scrape Pages` raises the step-name-wrapped AllPagesFailed error
exactly when the success list stays empty after processing every URL;
with at least one success, failed URLs are skipped non-fatally and the
step returns exactly the successes, in order. -/
theorem c3_all_pages_failed_iff (r : String → ScrapeResponse) (urls : List String) :
    (scrapePagesStep r urls =
        Except.error ("Scrape Pages failed: " ++ "Scraping failed for all pages.") ↔
      ∀ u ∈ urls, (r u).ok = false) ∧
    ((∃ u ∈ urls, (r u).ok = true) →
      scrapePagesStep r urls = Except.ok (scrapeLoop r urls) ∧
      scrapeLoop r urls = urls.filterMap (fun u =>
        if (r u).ok then some { fileName := fileNameOf u, content := (r u).markdown }
        else none) ∧
      (∀ p ∈ scrapeLoop r urls, ∃ u ∈ urls, (r u).ok = true ∧
        p = { fileName := fileNameOf u, content := (r u).markdown })) := by
  constructor
  · constructor
    · intro herr
      by_cases hemp : (scrapeLoop r urls).isEmpty
      · exact (scrapeLoop_eq_nil_iff r urls).mp (List.isEmpty_iff.mp hemp)
      · rw [scrapePagesStep, if_neg hemp] at herr
        exact absurd herr (by simp)
    · intro hall
      have hemp : (scrapeLoop r urls).isEmpty := by
        rw [List.isEmpty_iff]
        exact (scrapeLoop_eq_nil_iff r urls).mpr hall
      rw [scrapePagesStep, if_pos hemp]
  · rintro ⟨u, hu, huok⟩
    have hne : scrapeLoop r urls ≠ [] := by
      intro hnil
      exact absurd ((scrapeLoop_eq_nil_iff r urls).mp hnil u hu) (by simp [huok])
    have hemp : ¬(scrapeLoop r urls).isEmpty := by
      intro h; exact hne (List.isEmpty_iff.mp h)
    refine ⟨by rw [scrapePagesStep, if_neg hemp], scrapeLoop_eq_filterMap r urls, ?_⟩
    intro p hp
    rw [scrapeLoop_eq_filterMap r urls] at hp
    rcases List.mem_filterMap.mp hp with ⟨v, hv, hfv⟩
    by_cases hvok : (r v).ok
    · rw [if_pos hvok] at hfv
      exact ⟨v, hv, hvok, (Option.some.inj hfv).symm⟩
    · rw [if_neg hvok] at hfv
      exact absurd hfv (by simp)

/-- Extraction responses for the C3 witness: the first URL fails, the
second succeeds. -/
def scrapeRespW : String → ScrapeResponse :=
  fun url =>
    if url = "https://example.com/u1" then { ok := false, markdown := "" }
    else { ok := true, markdown := "# B" }

theorem c3_all_pages_failed_iff_witness :
    (∃ u ∈ ["https://example.com/u1", "https://example.com/u2"],
      (scrapeRespW u).ok = true) ∧
    scrapePagesStep scrapeRespW ["https://example.com/u1", "https://example.com/u2"] =
      Except.ok [{ fileName := "u2.md", content := "# B" }] := by
  refine ⟨by decide, ?_⟩
  have h := (c3_all_pages_failed_iff scrapeRespW
    ["https://example.com/u1", "https://example.com/u2"]).2 (by decide)
  rw [h.1]
  rfl

/-! ## The timing of the pause in the scraping loop (C4) -/

/-- Extraction responses exhibiting the missing pause: the first URL is
skipped, the second succeeds. -/
def scrapeRespOneFailure : String → ScrapeResponse :=
  fun url =>
    if url = "https://example.com/a" then { ok := false, markdown := "" }
    else { ok := true, markdown := "# B" }

/-- C4: the claim asks for an unconditional 3-second pause after every
attempt; in the source, the `continue` of the skip branch jumps past the
`setTimeout`, so a skipped URL is followed immediately by the next
request.  On a two-URL input whose first URL fails, the trace holds no
pause between the two requests and violates the claimed pause
discipline. -/
theorem c4_skip_omits_delay :
    scrapeTrace scrapeRespOneFailure
      ["https://example.com/a", "https://example.com/b"] =
      [ScrapeEvent.request "https://example.com/a",
       ScrapeEvent.skip "https://example.com/a",
       ScrapeEvent.request "https://example.com/b",
       ScrapeEvent.success "https://example.com/b",
       ScrapeEvent.delayMs 3000] ∧
    delaySeparatesRequests (scrapeTrace scrapeRespOneFailure
      ["https://example.com/a", "https://example.com/b"]) = false := by
  constructor
  · rfl
  · rfl

/-! ## Durable memoization of committed steps (C1) -/

theorem runSteps_skips_committed {α : Type} (impl : String → α) :
    ∀ (names : List String) (log : List (String × α)) (n : String) (v : α),
      log.lookup n = some v → n ∉ (runSteps impl log names).2 := by
  intro names
  induction names with
  | nil => intro log n v hv; simp [runSteps]
  | cons m rest ih =>
    intro log n v hv
    cases hm : log.lookup m with
    | some w =>
        rw [runSteps, hm]
        exact ih log n v hv
    | none =>
        rw [runSteps, hm]
        intro hmem
        rcases List.mem_cons.mp hmem with h | h
        · subst h
          rw [hv] at hm
          exact Option.noConfusion hm
        · have hnm : n ≠ m := by
            intro e
            rw [e, hm] at hv
            exact Option.noConfusion hv
          have hv2 : ((m, impl m) :: log).lookup n = some v := by
            rw [List.lookup_cons]
            have : (n == m) = false := beq_eq_false_iff_ne.mpr hnm
            rw [this]
            exact hv
          exact ih ((m, impl m) :: log) n v hv2 h

/-- C1: the five durable step names are pairwise distinct, and on any
(re-)execution over a persisted log, a step whose result is already
committed under its name is never re-invoked — in particular a resumed or
retried run never re-fetches the sitemap and never re-scrapes pages once
those steps have committed. -/
theorem c1_committed_step_never_reinvoked {α : Type} (impl : String → α)
    (log : List (String × α)) (n : String) (v : α)
    (hcommitted : log.lookup n = some v) :
    stepNames.Nodup ∧ n ∉ (runSteps impl log stepNames).2 :=
  ⟨by decide, runSteps_skips_committed impl stepNames log n v hcommitted⟩

theorem c1_committed_step_never_reinvoked_witness :
    ([("Get Sitemap URL", "https://example.com/sitemap.xml"),
      ("Fetch & Parse Sitemap", "urls")].lookup "Fetch & Parse Sitemap" = some "urls") ∧
    (stepNames.Nodup ∧
      "Fetch & Parse Sitemap" ∉ (runSteps (fun _ => "re-invoked")
        [("Get Sitemap URL", "https://example.com/sitemap.xml"),
         ("Fetch & Parse Sitemap", "urls")] stepNames).2) :=
  ⟨by decide, c1_committed_step_never_reinvoked (fun _ => "re-invoked")
    [("Get Sitemap URL", "https://example.com/sitemap.xml"),
     ("Fetch & Parse Sitemap", "urls")] "Fetch & Parse Sitemap" "urls" (by decide)⟩

/-! ## Filename derivation (C5) -/

/-- Following the spec's words, for the refinement comparison of C5: the
characters after the first `://` of the URL. -/
def afterSchemeSep : List Char → Option (List Char)
  | [] => none
  | c :: cs =>
      if [':', '/', '/'].isPrefixOf (c :: cs) then some ((c :: cs).drop 3)
      else afterSchemeSep cs

/-- Following the spec's words, for the refinement comparison of C5: the
URL's non-empty path segments — the slash-separated components after the
host component. -/
def specUrlPathSegments (url : String) : List String :=
  match afterSchemeSep url.toList with
  | none => []
  | some rest => ((jsSplitAux '/' rest []).drop 1).filter (fun s => s ≠ "")

/-- The C5 claim, formalized with the spec's path-segment reading: the
fileName is the final non-empty path segment plus `.md`, with one fixed
fallback name serving every URL whose path has no segments. -/
def c5FileNameClaim : Prop :=
  ∃ fallback : String, ∀ url : String,
    fileNameOf url = ((specUrlPathSegments url).getLast?.getD fallback) ++ ".md"

/-- C5 counterexample: `https://a.example` and `https://b.example` both
have empty path-segment lists, yet the source derives the two distinct
fileNames `a.example.md` and `b.example.md` (the host, not a fallback), so
no fallback name can satisfy the claim. -/
theorem c5_no_path_fallback_counterexample :
    specUrlPathSegments "https://a.example" = [] ∧
    specUrlPathSegments "https://b.example" = [] ∧
    fileNameOf "https://a.example" = "a.example.md" ∧
    fileNameOf "https://b.example" = "b.example.md" ∧
    ¬ c5FileNameClaim := by
  refine ⟨by decide, by decide, by decide, by decide, ?_⟩
  rintro ⟨fb, hfb⟩
  have h1 := hfb "https://a.example"
  have h2 := hfb "https://b.example"
  rw [show specUrlPathSegments "https://a.example" = [] from by decide] at h1
  rw [show specUrlPathSegments "https://b.example" = [] from by decide] at h2
  simp only [List.getLast?_nil, Option.getD_none] at h1 h2
  have h3 : fileNameOf "https://a.example" = fileNameOf "https://b.example" :=
    h1.trans h2.symm
  exact absurd h3 (by decide)

/-- The last non-empty slash-separated component of the URL string, the
fixed name `index` when there is none. -/
def lastUrlComponent (url : String) : String :=
  ((jsSplit '/' url).filter (fun p => p ≠ "")).getLast?.getD "index"

theorem string_eq_empty_of_length_eq_zero {s : String} (h : s.length = 0) :
    s = "" := by
  cases s with
  | mk data =>
      have hdata : data = [] := List.length_eq_zero.mp h
      rw [hdata]

/-- C5 amended: the fileName is the last non-empty slash-separated
component of the whole URL string (the host component when the path has
no segments) plus `.md`; the fixed fallback `index` is used exactly when
the URL has no non-empty component at all, so the fileName is never just
the extension. -/
theorem c5_amended_last_component (url : String) :
    fileNameOf url = lastUrlComponent url ++ ".md" ∧
    lastUrlComponent url ≠ "" ∧
    fileNameOf url ≠ ".md" := by
  have hcomp : lastUrlComponent url ≠ "" := by
    rw [lastUrlComponent]
    cases hlast : ((jsSplit '/' url).filter (fun p => p ≠ "")).getLast? with
    | none => simp
    | some s =>
        have hs : s ∈ (jsSplit '/' url).filter (fun p => p ≠ "") :=
          List.mem_of_mem_getLast? hlast
        have hs2 : s ≠ "" := by
          have := (List.mem_filter.mp hs).2
          exact of_decide_eq_true this
        simpa using hs2
  refine ⟨rfl, hcomp, ?_⟩
  intro hmd
  have hmd2 : lastUrlComponent url ++ ".md" = ".md" := hmd
  have hlen := congrArg String.length hmd2
  rw [String.length_append] at hlen
  exact hcomp (string_eq_empty_of_length_eq_zero (by omega))

/-! ## Instance creation validation (C7) -/

/-- C7: a creation request whose body lacks `sitemapUrl` or whose
`sitemapUrl` is not a string is rejected synchronously with a 400
`{error}` response, and no workflow instance is created. -/
theorem c7_invalid_create_rejected (field : Option JsValue)
    (h : field = none ∨ ∀ s, field ≠ some (JsValue.vStr s)) :
    createEndpoint field =
      CreateOutcome.rejected 400 "Missing or invalid sitemapUrl in request body." ∧
    ∀ p, createEndpoint field ≠ CreateOutcome.created p := by
  have hrej : createEndpoint field =
      CreateOutcome.rejected 400 "Missing or invalid sitemapUrl in request body." := by
    rcases h with h | h
    · subst h; rfl
    · cases field with
      | none => rfl
      | some v =>
          cases v with
          | vStr s => exact absurd rfl (h s)
          | vNull => rfl
          | vBool b => rfl
          | vNum n => rfl
  refine ⟨hrej, ?_⟩
  intro p hp
  rw [hrej] at hp
  exact CreateOutcome.noConfusion hp

theorem c7_invalid_create_rejected_witness :
    ((some (JsValue.vNum 3) = none ∨
        ∀ s, some (JsValue.vNum 3) ≠ some (JsValue.vStr s)) ∧
      createEndpoint (some (JsValue.vNum 3)) =
        CreateOutcome.rejected 400 "Missing or invalid sitemapUrl in request body.") :=
  ⟨Or.inr (fun s hs => by exact JsValue.noConfusion (Option.some.inj hs)),
   (c7_invalid_create_rejected (some (JsValue.vNum 3))
     (Or.inr (fun s hs => by exact JsValue.noConfusion (Option.some.inj hs)))).1⟩

/-! ## Status lookup (C9, C10) -/

/-- C9: a status lookup carrying an id answers `{id, status}` for an
existing instance, 404 with an `{error}` body (and no instance data) for
an unknown id, and 500 with an `{error}` body on a lookup failure. -/
theorem c9_status_lookup_responses (id : String) (hid : id ≠ "") :
    (∀ fid st, statusEndpoint (some id) (LookupOutcome.found fid st) =
      ({ status := 200, body := ReplyBody.instanceBody fid st }, true)) ∧
    statusEndpoint (some id) LookupOutcome.absent =
      ({ status := 404, body := ReplyBody.errorBody "Workflow instance not found" }, true) ∧
    (∀ e, statusEndpoint (some id) (LookupOutcome.failed e) =
      ({ status := 500
         body := ReplyBody.errorBody ("Failed to get workflow status: " ++ e) }, true)) := by
  refine ⟨fun fid st => ?_, ?_, fun e => ?_⟩ <;>
    · rw [statusEndpoint]
      rw [if_neg hid]

theorem c9_status_lookup_responses_witness :
    ("wf-1" ≠ "") ∧
    statusEndpoint (some "wf-1") LookupOutcome.absent =
      ({ status := 404, body := ReplyBody.errorBody "Workflow instance not found" }, true) :=
  ⟨by decide, (c9_status_lookup_responses "wf-1" (by decide)).2.1⟩

/-- C10: a `/status` request with no id query parameter is answered with
400, the workflow runtime is never queried, and the reply does not depend
on the runtime's state at all. -/
theorem c10_missing_id_is_400_without_lookup (lu : LookupOutcome) :
    (statusEndpoint none lu).1.status = 400 ∧
    (statusEndpoint none lu).2 = false ∧
    ∀ lu2, statusEndpoint none lu = statusEndpoint none lu2 :=
  ⟨rfl, rfl, fun _ => rfl⟩

/-! ## The end-to-end run: error propagation and the download URL -/

theorem exceptOk_bind {α β : Type} (a : α) (f : α → Except String β) :
    (Except.ok a >>= f) = f a := rfl

theorem exceptError_bind {α β : Type} (e : String) (f : α → Except String β) :
    ((Except.error e : Except String α) >>= f) = Except.error e := rfl

theorem except_bind_eq_ok {α β : Type} {x : Except String α}
    {f : α → Except String β} {b : β} :
    (x >>= f) = Except.ok b ↔ ∃ a, x = Except.ok a ∧ f a = Except.ok b := by
  cases x with
  | error e =>
      rw [exceptError_bind]
      constructor
      · intro h; exact Except.noConfusion h
      · rintro ⟨a, ha, _⟩; exact Except.noConfusion ha
  | ok a =>
      rw [exceptOk_bind]
      constructor
      · intro h; exact ⟨a, rfl, h⟩
      · rintro ⟨a2, ha2, hf⟩
        rw [← Except.ok.inj ha2] at hf
        exact hf

/-- C8: a non-2xx sitemap response makes `Fetch & Parse Sitemap` fail with
the wrapped fetch-failure message carrying the response status; the run
errors with a message beginning `Fetch & Parse Sitemap failed:`, so the
instance ends errored with that message, and the step's retry budget is
zero. -/
theorem c8_fetch_failure_errors_run (field : Option JsValue) (url : String)
    (resp : HttpResponse) (scr : String → ScrapeResponse) (ts : String)
    (hfield : field = some (JsValue.vStr url)) (hurl : url ≠ "")
    (hstatus : ¬(200 ≤ resp.status ∧ resp.status ≤ 299)) :
    runWorkflow field resp scr ts = Except.error
      ("Fetch & Parse Sitemap failed: " ++
        ("Failed to fetch sitemap: " ++ toString resp.status ++ " " ++ resp.statusText)) ∧
    (∃ rest, "Fetch & Parse Sitemap failed: " ++
        ("Failed to fetch sitemap: " ++ toString resp.status ++ " " ++ resp.statusText) =
      "Fetch & Parse Sitemap failed:" ++ rest) ∧
    (∃ a b, "Fetch & Parse Sitemap failed: " ++
        ("Failed to fetch sitemap: " ++ toString resp.status ++ " " ++ resp.statusText) =
      a ++ toString resp.status ++ b) ∧
    instanceOutcome (runWorkflow field resp scr ts) = InstanceStatus.errored
      ("Fetch & Parse Sitemap failed: " ++
        ("Failed to fetch sitemap: " ++ toString resp.status ++ " " ++ resp.statusText)) ∧
    fetchParseSitemapConfig.retries.limit = 0 := by
  have hok : responseOk resp = false := decide_eq_false hstatus
  have h1 : getSitemapUrlStep field = Except.ok url := by
    rw [hfield, getSitemapUrlStep, if_neg hurl]
  have h2 : fetchParseSitemapStep resp = Except.error
      ("Fetch & Parse Sitemap failed: " ++
        ("Failed to fetch sitemap: " ++ toString resp.status ++ " " ++ resp.statusText)) := by
    rw [fetchParseSitemapStep, if_pos hok]
  have hmain : runWorkflow field resp scr ts = Except.error
      ("Fetch & Parse Sitemap failed: " ++
        ("Failed to fetch sitemap: " ++ toString resp.status ++ " " ++ resp.statusText)) := by
    rw [runWorkflow, h1, exceptOk_bind, h2, exceptError_bind]
  refine ⟨hmain, ?_, ?_, ?_, rfl⟩
  · refine ⟨" " ++ ("Failed to fetch sitemap: " ++ toString resp.status ++ " " ++
      resp.statusText), ?_⟩
    have hsp : ("Fetch & Parse Sitemap failed: " : String) =
        "Fetch & Parse Sitemap failed:" ++ " " := by decide
    rw [hsp]
    simp only [String.append_assoc]
  · refine ⟨"Fetch & Parse Sitemap failed: " ++ "Failed to fetch sitemap: ",
      " " ++ resp.statusText, ?_⟩
    simp only [String.append_assoc]
  · rw [hmain]
    rfl

/-- A 500 sitemap response for the C8 witness. -/
def sitemapRespErrW : HttpResponse :=
  { status := 500, statusText := "Internal Server Error", body := "" }

theorem c8_fetch_failure_errors_run_witness :
    (¬(200 ≤ sitemapRespErrW.status ∧ sitemapRespErrW.status ≤ 299)) ∧
    runWorkflow (some (JsValue.vStr "https://example.com/sitemap.xml"))
        sitemapRespErrW (fun _ => { ok := true, markdown := "" }) "ts" =
      Except.error
        ("Fetch & Parse Sitemap failed: " ++
          ("Failed to fetch sitemap: " ++ toString sitemapRespErrW.status ++ " " ++
            sitemapRespErrW.statusText)) :=
  ⟨by decide,
   (c8_fetch_failure_errors_run (some (JsValue.vStr "https://example.com/sitemap.xml"))
     "https://example.com/sitemap.xml" sitemapRespErrW
     (fun _ => { ok := true, markdown := "" }) "ts" rfl (by decide) (by decide)).1⟩

/-- C6: on every completed run, the returned downloadUrl is the fixed
public base followed by the archive name; the archive name is the third
slash-separated component of the sitemap URL (its host component for a
well-formed URL) with dots replaced by underscores, an underscore, the
sanitized timestamp (`:` and `.` replaced by `-`), and `.zip`; the
sanitized parts are filesystem-safe, and the archive name alone
determines the URL produced by `Generate Result`. -/
theorem c6_download_url_shape (field : Option JsValue) (resp : HttpResponse)
    (scr : String → ScrapeResponse) (ts url host : String) (out : FinalResult)
    (hfield : field = some (JsValue.vStr url)) (hurl : url ≠ "")
    (hhost : (jsSplit '/' url).get? 2 = some host)
    (hrun : runWorkflow field resp scr ts = Except.ok out) :
    out.downloadUrl = r2PublicUrlBase ++
      (replaceDotsWithUnderscore host ++ "_" ++ sanitizeTimestamp ts ++ ".zip") ∧
    (∀ c ∈ (sanitizeTimestamp ts).toList, c ≠ ':' ∧ c ≠ '.') ∧
    (∀ c ∈ (replaceDotsWithUnderscore host).toList, c ≠ '.') ∧
    (∀ u : UploadResult, generateResultStep u =
      Except.ok { downloadUrl := r2PublicUrlBase ++ u.zipName }) ∧
    replaceDotsWithUnderscore "example.com" = "example_com" := by
  have h1 : getSitemapUrlStep field = Except.ok url := by
    rw [hfield, getSitemapUrlStep, if_neg hurl]
  rw [runWorkflow, h1, exceptOk_bind] at hrun
  rcases except_bind_eq_ok.mp hrun with ⟨pageUrls, _h2, hrun2⟩
  rcases except_bind_eq_ok.mp hrun2 with ⟨pages, _h3, hrun3⟩
  rcases except_bind_eq_ok.mp hrun3 with ⟨up, h4, h5⟩
  rw [zipUploadStep, hhost] at h4
  have hup : up = { zipName := replaceDotsWithUnderscore host ++ "_" ++
      sanitizeTimestamp ts ++ ".zip", files := pages.map (fun p => p.fileName) } :=
    (Except.ok.inj h4).symm
  rw [generateResultStep] at h5
  have hout : out = { downloadUrl := r2PublicUrlBase ++ up.zipName } :=
    (Except.ok.inj h5).symm
  refine ⟨?_, ?_, ?_, fun u => rfl, by decide⟩
  · rw [hout, hup]
  · intro c hc
    have hc2 : c ∈ ts.toList.map
        (fun a => if a = ':' ∨ a = '.' then '-' else a) := hc
    rcases List.mem_map.mp hc2 with ⟨a, _ha, rfl⟩
    by_cases hcol : a = ':' ∨ a = '.'
    · rw [if_pos hcol]
      exact ⟨by decide, by decide⟩
    · rw [if_neg hcol]
      push_neg at hcol
      exact hcol
  · intro c hc
    have hc2 : c ∈ host.toList.map (fun a => if a = '.' then '_' else a) := hc
    rcases List.mem_map.mp hc2 with ⟨a, _ha, rfl⟩
    by_cases hdot : a = '.'
    · rw [if_pos hdot]
      decide
    · rw [if_neg hdot]
      exact hdot

/-- The payload field of the C6 witness run. -/
def runFieldW : Option JsValue := some (JsValue.vStr "https://example.com/sitemap.xml")

/-- The sitemap response of the C6 witness run. -/
def runRespW : HttpResponse :=
  { status := 200, statusText := "OK"
    body := "<loc>https://example.com/a</loc><loc>https://example.com/b</loc>" }

/-- The upload-moment timestamp of the C6 witness run. -/
def runTsW : String := "2025-01-01T00:00:00.000Z"

/-- The result of the C6 witness run. -/
def runOutW : FinalResult :=
  { downloadUrl :=
      "https://pub-afa698db43a7418f8073ed229786891d.r2.dev/example_com_2025-01-01T00-00-00-000Z.zip" }

theorem c6_download_url_shape_witness :
    runWorkflow runFieldW runRespW (fun _ => { ok := true, markdown := "# A" }) runTsW =
      Except.ok runOutW ∧
    runOutW.downloadUrl = r2PublicUrlBase ++
      (replaceDotsWithUnderscore "example.com" ++ "_" ++ sanitizeTimestamp runTsW ++
        ".zip") :=
  ⟨by rfl,
   (c6_download_url_shape runFieldW runRespW (fun _ => { ok := true, markdown := "# A" })
     runTsW "https://example.com/sitemap.xml" "example.com" runOutW rfl (by decide)
     (by decide) (by rfl)).1⟩

end SitemapScraper
